import Mathlib

set_option maxRecDepth 8000
set_option maxHeartbeats 1000000

/-!
Verification of the PPTX split/merge tool (src/pptx_cli_tool.py and
src/pptx_split_merge.py) against its natural-language specification.

The file shallowly embeds the package model and the operations the claims
need.  A package is a list of named parts; XML payloads that the code only
copies are abstracted to opaque tokens, while the structures the code
actually parses and edits (relationship indexes, the presentation's slide
list, the content-type registry) are embedded as parsed values, since the
Python code reads exactly those fields.  String and path manipulation is
ported verbatim from the Python helpers, implemented over `List Char` so
that every definition reduces in the kernel.
-/

/-! ## String primitives (kernel-computable ports of the Python string ops) -/

/-- Does `pat` occur as an initial segment of `l`?  (Python `str.startswith`). -/
def listStarts : List Char → List Char → Bool
  | [], _ => true
  | _ :: _, [] => false
  | p :: ps, c :: cs => p == c && listStarts ps cs

/-- Does `pat` occur anywhere inside `l`?  (Python `in` on strings). -/
def listHasInfix (pat : List Char) : List Char → Bool
  | [] => listStarts pat []
  | c :: cs => listStarts pat (c :: cs) || listHasInfix pat cs

/-- Split `l` on single character `sep` (Python `str.split('/')`). -/
def chSplit (sep : Char) : List Char → List (List Char)
  | [] => [[]]
  | c :: cs =>
    if c == sep then [] :: chSplit sep cs
    else
      match chSplit sep cs with
      | [] => [[c]]
      | h :: t => (c :: h) :: t

/-- Join chunks with separator list (Python `sep.join`). -/
def joinWith (sep : List Char) : List (List Char) → List Char
  | [] => []
  | [x] => x
  | x :: y :: t => x ++ sep ++ joinWith sep (y :: t)

/-- Split on a (nonempty) pattern, leftmost non-overlapping occurrences,
fuel-driven; fuel `n` at least `l.length` gives Python `str.split(pat)`. -/
def splitOnLAux (pat : List Char) : Nat → List Char → List (List Char)
  | _, [] => [[]]
  | 0, l => [l]
  | n + 1, c :: cs =>
    if listStarts pat (c :: cs) then
      [] :: splitOnLAux pat n ((c :: cs).drop pat.length)
    else
      match splitOnLAux pat n cs with
      | [] => [[c]]
      | h :: t => (c :: h) :: t

/-- Python `str.split(pat)` for a nonempty pattern. -/
def splitOnL (pat l : List Char) : List (List Char) :=
  splitOnLAux pat l.length l

/-- Python `s.replace(old, new)` (all non-overlapping occurrences, left to right). -/
def pyReplace (s old new : String) : String :=
  ⟨joinWith new.data (splitOnL old.data s.data)⟩

/-- Python `s.startswith(pat)`. -/
def strStarts (s pat : String) : Bool := listStarts pat.data s.data

/-- Python `pat in s` (substring containment). -/
def strHasInfix (s pat : String) : Bool := listHasInfix pat.data s.data

/-- Python `s.lower()` (ASCII is all the code relies on). -/
def lowerStr (s : String) : String := ⟨s.data.map Char.toLower⟩

/-- Python `'/' in s`. -/
def hasSlash (s : String) : Bool := s.data.contains '/'

/-- The characters of `"_rels"`. -/
def relsDirSeg : List Char := ['_', 'r', 'e', 'l', 's']

/-- The characters of `".rels"`. -/
def relsSuffix : List Char := ['.', 'r', 'e', 'l', 's']

/-- Embeds `PPTXSplitter._get_rels_path` (identical in all rewrites,
e.g. src/pptx_cli_tool.py lines 704-709): `a/b` becomes `a/_rels/b.rels`,
a bare name `b` becomes `_rels/b.rels`.  `rsplit('/', 1)` is realized by
splitting the reversed character list at the first `'/'`. -/
def getRelsPath (s : String) : String :=
  let r := s.data.reverse
  let nameRev := r.takeWhile (fun c => c != '/')
  match r.dropWhile (fun c => c != '/') with
  | [] => ⟨relsDirSeg ++ '/' :: s.data ++ relsSuffix⟩
  | _ :: dirRev => ⟨dirRev.reverse ++ '/' :: relsDirSeg ++ '/' :: nameRev.reverse ++ relsSuffix⟩

/-- Directory of a path that contains a slash: Python `base.rsplit('/', 1)[0]`. -/
def dirOf (s : String) : String :=
  match s.data.reverse.dropWhile (fun c => c != '/') with
  | [] => ""
  | _ :: dirRev => ⟨dirRev.reverse⟩

/-- Embeds `PPTXSplitter._resolve_path` (src/pptx_cli_tool.py lines 711-729;
the same algorithm reappears as `_resolve_relative_path` at 1089-1105 and
`_resolve_path` at 1931-1947): leading-slash targets are absolute; otherwise
the target's segments are applied to the owner's directory, `..` popping one
segment, empty and `.` segments skipped. -/
def resolvePath (base target : String) : String :=
  if strStarts target "/" then ⟨target.data.drop 1⟩
  else
    let baseDir := if hasSlash base then dirOf base else ""
    let parts := (chSplit '/' target.data).map (fun l => (⟨l⟩ : String))
    let baseParts : List String :=
      if baseDir = "" then [] else (chSplit '/' baseDir.data).map (fun l => (⟨l⟩ : String))
    let final := parts.foldl
      (fun acc part =>
        if part = ".." then acc.dropLast
        else if part ≠ "" ∧ part ≠ "." then acc ++ [part]
        else acc)
      baseParts
    ⟨joinWith ['/'] (final.map String.data)⟩

/-! ## Data model

A package is the parsed view of the ZIP container: a list of named parts.
Payloads the code copies verbatim are opaque (`bin`); the structures the
code parses and edits are embedded as parsed values. -/

/-- One `<p:sldId>` element of the presentation's slide list: its `id`
attribute and its `r:id` attribute. -/
structure SldEntry where
  sid : String
  rid : String
deriving DecidableEq

/-- One `<Relationship>` element of a relationship-index part. -/
structure RelEntry where
  rid : String
  typ : String
  target : String
deriving DecidableEq

/-- The parsed `[Content_Types].xml`: extension defaults and per-part overrides. -/
structure CTDoc where
  defaults : List (String × String)
  overrides : List (String × String)
deriving DecidableEq

/-- Parsed payload of a part. -/
inductive Content where
  /-- an opaque (binary or uninspected XML) payload, identified by a token -/
  | bin : Nat → Content
  /-- `ppt/presentation.xml`: `none` when it has no `<p:sldIdLst>`, else the entries -/
  | pres : Option (List SldEntry) → Content
  /-- a `*.rels` relationship-index part -/
  | rels : List RelEntry → Content
  /-- `[Content_Types].xml` -/
  | ctypes : CTDoc → Content
  /-- `docProps/app.xml`, abstracted to its `<Slides>` count -/
  | appx : Nat → Content
deriving DecidableEq

/-- One named part of the container. -/
structure PPart where
  path : String
  content : Content
deriving DecidableEq

/-- A package: the ordered list of parts of the ZIP container. -/
abbrev Package := List PPart

/-- `zin.namelist()`. -/
def namelist (zin : Package) : List String := zin.map (fun e => e.path)

deriving instance DecidableEq for Except

/-- Python `zipfile` read errors (`KeyError` for a missing member). -/
inductive ZipErr where
  | keyError : String → ZipErr
deriving DecidableEq

/-- `zin.read(p)`: the parsed content of the member, or `KeyError`. -/
def readC (zin : Package) (p : String) : Except ZipErr Content :=
  match zin.find? (fun e => e.path == p) with
  | some e => Except.ok e.content
  | none => Except.error (ZipErr.keyError p)

/-- The `Target` attributes of a part, in document order (what
`re.findall(r'Target="([^"]+)"', ...)` and the `ET` loops extract from a
relationship-index part; a part that is not a relationship index yields none). -/
def targetsOf (e : PPart) : List String :=
  match e.content with
  | Content.rels rs => rs.map (fun r => r.target)
  | _ => []

/-- The targets of the member at path `p` (empty if the member is absent). -/
def readTargets (zin : Package) (p : String) : List String :=
  match zin.find? (fun e => e.path == p) with
  | some e => targetsOf e
  | none => []

/-- Add to a list-as-set (Python `set.add`): append unless already present. -/
def insertOnce (l : List String) (x : String) : List String :=
  if x ∈ l then l else l ++ [x]

/-! ## The breadth-first dependency walk

`_collect_dependencies` (src/pptx_cli_tool.py 651-702) and
`_collect_all_dependencies` (1859-1922) run the same queue-driven walk and
differ only in how a raw `Target` attribute is turned into an enqueueable
path, and in the fixed part lists added afterwards.  The walk is embedded
with explicit fuel; `bfsFuel` below is proved sufficient for every package. -/

/-- The mutable state of the walk: the work queue (`to_process`), the set of
expanded parts (`processed`, kept in expansion order, so it doubles as the
visit log), and the accumulated dependency set (`dependencies`). -/
structure BfsState where
  queue : List String
  processed : List String
  deps : List String
deriving DecidableEq

/-- One target-to-path step of `_collect_dependencies` (lines 676-681):
every truthy `Target` is resolved against the current owner; there is no
external-target check in this version. -/
def resolveTargetV2 (cur t : String) : Option String :=
  if t = "" then none else some (resolvePath cur t)

/-- One target-to-path step of `_collect_all_dependencies` (lines 1890-1896):
`http...` targets are skipped and a falsy resolved path is dropped. -/
def resolveTargetV4 (cur t : String) : Option String :=
  if t = "" then none
  else if strStarts t "http" then none
  else
    let d := resolvePath cur t
    if d = "" then none else some d

/-- The queue-driven walk shared by `_collect_dependencies` (651-681) and
`_collect_all_dependencies` (1871-1898).  Each iteration pops the front of
the queue; an already-processed part is skipped, otherwise the part is
expanded: it is marked processed, added to the dependency set together with
its relationship-index part when that exists, and the resolved targets not
yet processed are appended to the queue. -/
def bfsAux (zin : Package) (rt : String → String → Option String) :
    Nat → BfsState → BfsState
  | 0, s => s
  | n + 1, s =>
    match s.queue with
    | [] => s
    | current :: rest =>
      if current ∈ s.processed then
        bfsAux zin rt n ⟨rest, s.processed, s.deps⟩
      else
        let processed := s.processed ++ [current]
        let deps := insertOnce s.deps current
        let relsPath := getRelsPath current
        if relsPath ∈ namelist zin then
          let deps := insertOnce deps relsPath
          let newItems := (readTargets zin relsPath).filterMap
            (fun t =>
              match rt current t with
              | some d => if d ∈ processed then none else some d
              | none => none)
          bfsAux zin rt n ⟨rest ++ newItems, processed, deps⟩
        else
          bfsAux zin rt n ⟨rest, processed, deps⟩

/-- Total number of relationship targets stored in the package; bounds how
many items any single expansion can enqueue. -/
def totalTargets (zin : Package) : Nat :=
  (zin.map (fun e => (targetsOf e).length)).sum

/-- Fuel sufficient to drain the walk's queue on any package (proved below). -/
def bfsFuel (zin : Package) : Nat :=
  2 + (totalTargets zin + 1) * zin.length

/-- Run the walk from a start part, as both collectors do. -/
def bfsRun (zin : Package) (rt : String → String → Option String)
    (start : String) : BfsState :=
  bfsAux zin rt (bfsFuel zin) ⟨[start], [], []⟩

/-- The fixed part list of `_collect_dependencies` (lines 684-691). -/
def coreFilesV2 : List String :=
  ["ppt/presentation.xml", "ppt/_rels/presentation.xml.rels",
   "[Content_Types].xml", "_rels/.rels", "docProps/core.xml", "docProps/app.xml"]

/-- Embeds `PPTXSplitter._collect_dependencies` (src/pptx_cli_tool.py
651-702): the walk from the slide, then the fixed core files present in the
package, then every member whose lowercased name contains `theme`. -/
def collectDependenciesV2 (zin : Package) (slidePath : String) : List String :=
  let s := bfsRun zin resolveTargetV2 slidePath
  let deps := coreFilesV2.foldl
    (fun d c => if c ∈ namelist zin then insertOnce d c else d) s.deps
  (namelist zin).foldl
    (fun d n => if strHasInfix (lowerStr n) "theme" then insertOnce d n else d) deps

/-- The fixed part list of `_collect_all_dependencies` (lines 1901-1911). -/
def coreFilesV4 : List String :=
  ["[Content_Types].xml", "_rels/.rels", "docProps/core.xml", "docProps/app.xml",
   "ppt/presentation.xml", "ppt/_rels/presentation.xml.rels",
   "ppt/presProps.xml", "ppt/viewProps.xml", "ppt/tableStyles.xml"]

/-- Embeds `PPTXSplitter._collect_all_dependencies` (src/pptx_cli_tool.py
1859-1922): the walk (with `http` targets skipped), the fixed core files
present in the package, then every member whose name contains `/theme`. -/
def collectAllDependenciesV4 (zin : Package) (slidePath : String) : List String :=
  let s := bfsRun zin resolveTargetV4 slidePath
  let deps := coreFilesV4.foldl
    (fun d c => if c ∈ namelist zin then insertOnce d c else d) s.deps
  (namelist zin).foldl
    (fun d n => if strHasInfix n "/theme" then insertOnce d n else d) deps

/-! ## The recursive dependency walk of the v3 rewrite -/

/-- Embeds `PPTXSplitter._collect_transitive_deps` (src/pptx_cli_tool.py
1069-1087): expand `filePath` only when its relationship-index part exists
and is not already in `needed`; then recurse into each non-`http` target not
yet in `needed`.  Fuel-driven; any fuel at least the recursion depth gives
the Python behaviour, and the recursion is bounded because `needed` grows. -/
def collectTransitiveDepsV3 (zin : Package) :
    Nat → String → List String → List String
  | 0, _, needed => needed
  | fuel + 1, filePath, needed =>
    let relsPath := getRelsPath filePath
    if relsPath ∈ namelist zin ∧ relsPath ∉ needed then
      let needed := needed ++ [relsPath]
      (readTargets zin relsPath).foldl
        (fun acc t =>
          if strStarts t "http" then acc
          else
            let dep := resolvePath filePath t
            if dep ∉ acc then collectTransitiveDepsV3 zin fuel dep (acc ++ [dep])
            else acc)
        needed
    else needed

/-- The fixed part list of `_collect_slide_dependencies` (lines 1049-1056). -/
def coreFilesV3 : List String :=
  ["_rels/.rels", "docProps/core.xml", "docProps/app.xml",
   "ppt/presProps.xml", "ppt/viewProps.xml", "ppt/tableStyles.xml"]

/-- Embeds `PPTXSplitter._collect_slide_dependencies` (src/pptx_cli_tool.py
1011-1067): the slide, its relationship-index part (located by string
replacement), each directly referenced part with its relationship-index
part, a call to `_collect_transitive_deps` for each such part, then the
fixed core files present in the package and every member whose name
contains `/theme/` or starts with `ppt/theme`.  Note the call to
`_collect_transitive_deps` happens after `dep_rels` was already added to
`needed`, which is exactly what the code does. -/
def collectSlideDependenciesV3 (zin : Package) (slidePath : String) : List String :=
  let needed := [slidePath]
  let slideRels := pyReplace (pyReplace slidePath ".xml" ".xml.rels") "/slides/" "/slides/_rels/"
  let needed :=
    if slideRels ∈ namelist zin then
      let needed := needed ++ [slideRels]
      (readTargets zin slideRels).foldl
        (fun acc t =>
          if strStarts t "http" then acc
          else
            let dep := resolvePath slidePath t
            let acc := insertOnce acc dep
            let depRels := getRelsPath dep
            if depRels ∈ namelist zin then
              collectTransitiveDepsV3 zin (bfsFuel zin) dep (insertOnce acc depRels)
            else acc)
        needed
    else needed
  let needed := coreFilesV3.foldl
    (fun d c => if c ∈ namelist zin then insertOnce d c else d) needed
  (namelist zin).foldl
    (fun d n =>
      if strHasInfix n "/theme/" || strStarts n "ppt/theme" then insertOnce d n else d)
    needed

/-! ## Termination of the walk

The fuel `bfsFuel` drains the queue on every package.  The key measure
counts, besides the queue length, the relationship-index members of the
package whose owner has not been expanded yet; `getRelsPath` being injective
makes each such member usable at most once. -/

/-- A character list without `'/'`. -/
def NoSlash (l : List Char) : Prop := ∀ c ∈ l, c ≠ '/'

theorem listFirstSlash (a₁ : List Char) :
    ∀ (a₂ b₁ b₂ : List Char), NoSlash a₁ → NoSlash a₂ →
      a₁ ++ '/' :: b₁ = a₂ ++ '/' :: b₂ → a₁ = a₂ ∧ b₁ = b₂ := by
  induction a₁ with
  | nil =>
    intro a₂ b₁ b₂ _ h₂ h
    cases a₂ with
    | nil => simpa using h
    | cons c t =>
      simp only [List.nil_append, List.cons_append, List.cons.injEq] at h
      exact absurd h.1.symm (h₂ c (by simp))
  | cons c t ih =>
    intro a₂ b₁ b₂ h₁ h₂ h
    cases a₂ with
    | nil =>
      simp only [List.nil_append, List.cons_append, List.cons.injEq] at h
      exact absurd h.1 (h₁ c (by simp))
    | cons c' t' =>
      simp only [List.cons_append, List.cons.injEq] at h
      obtain ⟨rfl, h⟩ := h
      obtain ⟨ht, hb⟩ := ih t' b₁ b₂ (fun x hx => h₁ x (by simp [hx]))
        (fun x hx => h₂ x (by simp [hx])) h
      exact ⟨by rw [ht], hb⟩

theorem listLastSlash (a b c d : List Char) (hb : NoSlash b) (hd : NoSlash d)
    (h : a ++ '/' :: b = c ++ '/' :: d) : a = c ∧ b = d := by
  have h' : b.reverse ++ '/' :: a.reverse = d.reverse ++ '/' :: c.reverse := by
    have hrev := congrArg List.reverse h
    simpa [List.reverse_append, List.append_assoc] using hrev
  obtain ⟨h1, h2⟩ := listFirstSlash b.reverse d.reverse a.reverse c.reverse
    (fun x hx => hb x (List.mem_reverse.mp hx))
    (fun x hx => hd x (List.mem_reverse.mp hx)) h'
  exact ⟨List.reverse_injective h2, List.reverse_injective h1⟩

theorem dropWhileHeadFalse (p : Char → Bool) :
    ∀ (l : List Char) (c : Char) (t : List Char), l.dropWhile p = c :: t → p c = false := by
  intro l
  induction l with
  | nil => intro c t h; simp [List.dropWhile] at h
  | cons a l ih =>
    intro c t h
    by_cases hpa : p a = true
    · rw [List.dropWhile_cons_of_pos hpa] at h
      exact ih c t h
    · rw [List.dropWhile_cons_of_neg hpa] at h
      cases h
      exact Bool.not_eq_true _ ▸ eq_false_of_ne_true hpa

theorem noSlashRelsSuffix : NoSlash relsSuffix := by
  unfold NoSlash relsSuffix
  decide

theorem noSlashAppend (l m : List Char) (hl : NoSlash l) (hm : NoSlash m) :
    NoSlash (l ++ m) := by
  intro x hx
  rcases List.mem_append.mp hx with hx1 | hx2
  · exact hl x hx1
  · exact hm x hx2

theorem getRelsPath_inj : Function.Injective getRelsPath := by
  intro a b h
  unfold getRelsPath at h
  have hdata := congrArg String.data h
  clear h
  have splitA := List.takeWhile_append_dropWhile (p := fun c => c != '/') (l := a.data.reverse)
  have splitB := List.takeWhile_append_dropWhile (p := fun c => c != '/') (l := b.data.reverse)
  have noSlashTakeA : NoSlash ((a.data.reverse.takeWhile (fun c => c != '/')).reverse) := by
    intro x hx
    have := List.mem_takeWhile_imp (List.mem_reverse.mp hx)
    simpa using this
  have noSlashTakeB : NoSlash ((b.data.reverse.takeWhile (fun c => c != '/')).reverse) := by
    intro x hx
    have := List.mem_takeWhile_imp (List.mem_reverse.mp hx)
    simpa using this
  cases hA : a.data.reverse.dropWhile (fun c => c != '/') with
  | nil =>
    have noSlashA : NoSlash a.data := by
      intro x hx
      have hall := (List.dropWhile_eq_nil_iff).mp hA
      have := hall x (List.mem_reverse.mpr hx)
      simpa using this
    cases hB : b.data.reverse.dropWhile (fun c => c != '/') with
    | nil =>
      have noSlashB : NoSlash b.data := by
        intro x hx
        have hall := (List.dropWhile_eq_nil_iff).mp hB
        have := hall x (List.mem_reverse.mpr hx)
        simpa using this
      simp only [hA, hB] at hdata
      have h2 : relsDirSeg ++ '/' :: (a.data ++ relsSuffix)
          = relsDirSeg ++ '/' :: (b.data ++ relsSuffix) := by
        simpa [List.append_assoc] using hdata
      have h3 := List.append_cancel_left h2
      have h4 : a.data ++ relsSuffix = b.data ++ relsSuffix := by
        injection h3
      have h5 := List.append_cancel_right h4
      exact congrArg String.mk h5
    | cons hdB dirRevB =>
      exfalso
      have hdBslash : hdB = '/' := by
        have := dropWhileHeadFalse (fun c => c != '/') b.data.reverse hdB dirRevB hB
        simpa using this
      subst hdBslash
      simp only [hA, hB] at hdata
      have hL : relsDirSeg ++ '/' :: (a.data ++ relsSuffix)
          = (dirRevB.reverse ++ '/' :: relsDirSeg) ++ '/'
            :: ((b.data.reverse.takeWhile (fun c => c != '/')).reverse ++ relsSuffix) := by
        simpa [List.append_assoc] using hdata
      have hpre := (listLastSlash relsDirSeg (a.data ++ relsSuffix)
        (dirRevB.reverse ++ '/' :: relsDirSeg)
        ((b.data.reverse.takeWhile (fun c => c != '/')).reverse ++ relsSuffix)
        (noSlashAppend _ _ noSlashA noSlashRelsSuffix)
        (noSlashAppend _ _ noSlashTakeB noSlashRelsSuffix) hL).1
      have := congrArg List.length hpre
      simp [relsDirSeg] at this
  | cons hdA dirRevA =>
    have hdAslash : hdA = '/' := by
      have := dropWhileHeadFalse (fun c => c != '/') a.data.reverse hdA dirRevA hA
      simpa using this
    subst hdAslash
    cases hB : b.data.reverse.dropWhile (fun c => c != '/') with
    | nil =>
      exfalso
      have noSlashB : NoSlash b.data := by
        intro x hx
        have hall := (List.dropWhile_eq_nil_iff).mp hB
        have := hall x (List.mem_reverse.mpr hx)
        simpa using this
      simp only [hA, hB] at hdata
      have hL : (dirRevA.reverse ++ '/' :: relsDirSeg) ++ '/'
            :: ((a.data.reverse.takeWhile (fun c => c != '/')).reverse ++ relsSuffix)
          = relsDirSeg ++ '/' :: (b.data ++ relsSuffix) := by
        simpa [List.append_assoc] using hdata
      have hpre := (listLastSlash (dirRevA.reverse ++ '/' :: relsDirSeg)
        ((a.data.reverse.takeWhile (fun c => c != '/')).reverse ++ relsSuffix)
        relsDirSeg (b.data ++ relsSuffix)
        (noSlashAppend _ _ noSlashTakeA noSlashRelsSuffix)
        (noSlashAppend _ _ noSlashB noSlashRelsSuffix) hL).1
      have := congrArg List.length hpre
      simp [relsDirSeg] at this
    | cons hdB dirRevB =>
      have hdBslash : hdB = '/' := by
        have := dropWhileHeadFalse (fun c => c != '/') b.data.reverse hdB dirRevB hB
        simpa using this
      subst hdBslash
      simp only [hA, hB] at hdata
      have hL : (dirRevA.reverse ++ '/' :: relsDirSeg) ++ '/'
            :: ((a.data.reverse.takeWhile (fun c => c != '/')).reverse ++ relsSuffix)
          = (dirRevB.reverse ++ '/' :: relsDirSeg) ++ '/'
            :: ((b.data.reverse.takeWhile (fun c => c != '/')).reverse ++ relsSuffix) := by
        simpa [List.append_assoc] using hdata
      obtain ⟨hpre, hsuf⟩ := listLastSlash (dirRevA.reverse ++ '/' :: relsDirSeg)
        ((a.data.reverse.takeWhile (fun c => c != '/')).reverse ++ relsSuffix)
        (dirRevB.reverse ++ '/' :: relsDirSeg)
        ((b.data.reverse.takeWhile (fun c => c != '/')).reverse ++ relsSuffix)
        (noSlashAppend _ _ noSlashTakeA noSlashRelsSuffix)
        (noSlashAppend _ _ noSlashTakeB noSlashRelsSuffix) hL
      have hdir : dirRevA = dirRevB :=
        List.reverse_injective (List.append_cancel_right hpre)
      have hname : a.data.reverse.takeWhile (fun c => c != '/')
          = b.data.reverse.takeWhile (fun c => c != '/') :=
        List.reverse_injective (List.append_cancel_right hsuf)
      have hrev : a.data.reverse = b.data.reverse := by
        rw [← splitA, ← splitB, hA, hB, hname, hdir]
      exact congrArg String.mk (List.reverse_injective hrev)

/-- Has the owner of relationship-index member `e` already been expanded? -/
def consumedEntry (processed : List String) (e : PPart) : Bool :=
  processed.any (fun p => getRelsPath p == e.path)

/-- Number of package members whose owner has not been expanded yet. -/
def unconsumedCount (zin : Package) (processed : List String) : Nat :=
  (zin.filter (fun e => !consumedEntry processed e)).length

/-- The decreasing measure of the walk. -/
def phiBfs (zin : Package) (s : BfsState) : Nat :=
  s.queue.length + (totalTargets zin + 1) * unconsumedCount zin s.processed

theorem filterLenMono {α : Type} (l : List α) (p q : α → Bool)
    (h : ∀ x ∈ l, q x = true → p x = true) :
    (l.filter q).length ≤ (l.filter p).length := by
  induction l with
  | nil => simp
  | cons a t ih =>
    have ht := ih (fun x hx => h x (by simp [hx]))
    by_cases hq : q a = true
    · have hp := h a (by simp) hq
      simp [List.filter, hq, hp]
      omega
    · by_cases hp : p a = true
      · simp [List.filter, hq, hp] at ht ⊢
        omega
      · simp [List.filter, hq, hp] at ht ⊢
        omega

theorem filterLenStrict {α : Type} (l : List α) (p q : α → Bool)
    (h : ∀ x ∈ l, q x = true → p x = true)
    (x₀ : α) (hm : x₀ ∈ l) (hp : p x₀ = true) (hq : q x₀ = false) :
    (l.filter q).length < (l.filter p).length := by
  induction l with
  | nil => simp at hm
  | cons a t ih =>
    have hmono := filterLenMono t p q (fun x hx => h x (by simp [hx]))
    rcases List.mem_cons.mp hm with rfl | hmem
    · simp [List.filter, hp, hq]
      omega
    · have ht := ih (fun x hx => h x (by simp [hx])) hmem
      by_cases hqa : q a = true
      · have hpa := h a (by simp) hqa
        simp [List.filter, hqa, hpa]
        omega
      · by_cases hpa : p a = true
        · simp [List.filter, hqa, hpa] at ht ⊢
          omega
        · simp [List.filter, hqa, hpa] at ht ⊢
          omega

theorem leSumOfMem (l : List Nat) (x : Nat) (h : x ∈ l) : x ≤ l.sum := by
  induction l with
  | nil => simp at h
  | cons a t ih =>
    rcases List.mem_cons.mp h with rfl | hmem
    · simp
    · simp only [List.sum_cons]
      exact le_trans (ih hmem) (Nat.le_add_left _ _)

theorem readTargetsLen (zin : Package) (p : String) :
    (readTargets zin p).length ≤ totalTargets zin := by
  unfold readTargets
  cases hf : zin.find? (fun e => e.path == p) with
  | none => simp
  | some e =>
    have hmem := List.mem_of_find?_eq_some hf
    have : (targetsOf e).length ∈ zin.map (fun e => (targetsOf e).length) :=
      List.mem_map.mpr ⟨e, hmem, rfl⟩
    exact leSumOfMem _ _ this

theorem consumedMono (processed : List String) (c : String) (e : PPart)
    (h : consumedEntry processed e = true) :
    consumedEntry (processed ++ [c]) e = true := by
  unfold consumedEntry at *
  simp only [List.any_append, Bool.or_eq_true]
  exact Or.inl h

theorem unconsumedMono (zin : Package) (processed : List String) (c : String) :
    unconsumedCount zin (processed ++ [c]) ≤ unconsumedCount zin processed := by
  apply filterLenMono
  intro e _ he
  have h1 : consumedEntry (processed ++ [c]) e = false := by
    revert he
    cases consumedEntry (processed ++ [c]) e <;> simp
  have h2 : consumedEntry processed e = false := by
    by_contra hcon
    have := consumedMono processed c e
      (by revert hcon; cases consumedEntry processed e <;> simp)
    rw [h1] at this
    cases this
  simp [h2]

theorem unconsumedStrict (zin : Package) (processed : List String) (current : String)
    (hc : current ∉ processed) (hrp : getRelsPath current ∈ namelist zin) :
    unconsumedCount zin (processed ++ [current]) < unconsumedCount zin processed := by
  obtain ⟨e, hmem, hpath⟩ := List.mem_map.mp hrp
  have hImp : ∀ x ∈ zin, (!consumedEntry (processed ++ [current]) x) = true →
      (!consumedEntry processed x) = true := by
    intro x _ hx
    have h1 : consumedEntry (processed ++ [current]) x = false := by
      revert hx
      cases consumedEntry (processed ++ [current]) x <;> simp
    have h2 : consumedEntry processed x = false := by
      by_contra hcon
      have := consumedMono processed current x
        (by revert hcon; cases consumedEntry processed x <;> simp)
      rw [h1] at this
      cases this
    simp [h2]
  have hp : (!consumedEntry processed e) = true := by
    have hfalse : consumedEntry processed e = false := by
      by_contra hcon
      have htrue : consumedEntry processed e = true := by
        revert hcon
        cases consumedEntry processed e <;> simp
      unfold consumedEntry at htrue
      rw [List.any_eq_true] at htrue
      obtain ⟨p, hp', hbeq⟩ := htrue
      have heq : getRelsPath p = e.path := by simpa using hbeq
      have hpc : p = current := getRelsPath_inj (by rw [heq, hpath])
      exact hc (hpc ▸ hp')
    simp [hfalse]
  have hq : (!consumedEntry (processed ++ [current]) e) = false := by
    have htrue : consumedEntry (processed ++ [current]) e = true := by
      unfold consumedEntry
      rw [List.any_eq_true]
      exact ⟨current, by simp, by simp [hpath]⟩
    simp [htrue]
  exact filterLenStrict zin _ _ hImp e hmem hp hq

theorem bfsAuxDrains (zin : Package) (rt : String → String → Option String) :
    ∀ (n : Nat) (s : BfsState), s.processed.Nodup → phiBfs zin s < n →
      (bfsAux zin rt n s).queue = [] ∧ (bfsAux zin rt n s).processed.Nodup := by
  intro n
  induction n with
  | zero => intro s _ habs; exact absurd habs (Nat.not_lt_zero _)
  | succ n ih =>
    intro s hnodup hphi
    obtain ⟨queue, processed, deps⟩ := s
    cases queue with
    | nil =>
      constructor
      · simp [bfsAux]
      · simpa [bfsAux] using hnodup
    | cons current rest =>
      by_cases hmem : current ∈ processed
      · have hstep : bfsAux zin rt (n + 1) ⟨current :: rest, processed, deps⟩
            = bfsAux zin rt n ⟨rest, processed, deps⟩ := by
          simp [bfsAux, hmem]
        rw [hstep]
        refine ih ⟨rest, processed, deps⟩ (by simpa using hnodup) ?_
        simp only [phiBfs] at hphi ⊢
        simp only [List.length_cons] at hphi
        omega
      · have hnodup' : (processed ++ [current]).Nodup := by
          simp [List.nodup_append, hnodup, hmem]
        by_cases hrp : getRelsPath current ∈ namelist zin
        · have hstep : bfsAux zin rt (n + 1) ⟨current :: rest, processed, deps⟩
              = bfsAux zin rt n
                ⟨rest ++ (readTargets zin (getRelsPath current)).filterMap
                    (fun t =>
                      match rt current t with
                      | some d => if d ∈ processed ++ [current] then none else some d
                      | none => none),
                  processed ++ [current],
                  insertOnce (insertOnce deps current) (getRelsPath current)⟩ := by
            simp [bfsAux, hmem, hrp]
          rw [hstep]
          refine ih _ (by simpa using hnodup') ?_
          have hlen1 : ((readTargets zin (getRelsPath current)).filterMap
              (fun t =>
                match rt current t with
                | some d => if d ∈ processed ++ [current] then none else some d
                | none => none)).length ≤ totalTargets zin :=
            le_trans (List.length_filterMap_le _ _) (readTargetsLen zin _)
          have hstrict := unconsumedStrict zin processed current hmem hrp
          have hmul : (totalTargets zin + 1) * unconsumedCount zin (processed ++ [current])
                + (totalTargets zin + 1)
              ≤ (totalTargets zin + 1) * unconsumedCount zin processed := by
            have := Nat.mul_le_mul_left (totalTargets zin + 1) (Nat.succ_le_of_lt hstrict)
            simpa [Nat.mul_succ] using this
          simp only [phiBfs, List.length_cons, List.length_append] at hphi ⊢
          omega
        · have hstep : bfsAux zin rt (n + 1) ⟨current :: rest, processed, deps⟩
              = bfsAux zin rt n ⟨rest, processed ++ [current], insertOnce deps current⟩ := by
            simp [bfsAux, hmem, hrp]
          rw [hstep]
          refine ih _ (by simpa using hnodup') ?_
          have hmono := unconsumedMono zin processed current
          have hmul : (totalTargets zin + 1) * unconsumedCount zin (processed ++ [current])
              ≤ (totalTargets zin + 1) * unconsumedCount zin processed :=
            Nat.mul_le_mul_left _ hmono
          simp only [phiBfs, List.length_cons] at hphi ⊢
          omega

theorem bfsRunDone (zin : Package) (rt : String → String → Option String)
    (start : String) :
    (bfsRun zin rt start).queue = [] ∧ (bfsRun zin rt start).processed.Nodup := by
  apply bfsAuxDrains
  · simp
  · have h0 : unconsumedCount zin [] ≤ zin.length := List.length_filter_le _ _
    have hmul : (totalTargets zin + 1) * unconsumedCount zin []
        ≤ (totalTargets zin + 1) * zin.length := Nat.mul_le_mul_left _ h0
    simp only [phiBfs, bfsFuel, List.length_cons, List.length_nil]
    omega

/-! ## Manifest and relationship-index writers -/

/-- The relationship type URI of a slide. -/
def slideTypeURI : String :=
  "http://schemas.openxmlformats.org/officeDocument/2006/relationships/slide"

/-- Embeds `PPTXSplitter._write_single_slide_presentation` of the first
zipfile rewrite (src/pptx_cli_tool.py 748-766): when the document has a
slide list, remove every entry whose `r:id` differs from the chosen slide's;
the surviving entry keeps its original attributes. -/
def writeSingleSlidePresentationV2 (slideRid : String) :
    Option (List SldEntry) → Option (List SldEntry)
  | none => none
  | some l => some (l.filter (fun e => e.rid == slideRid))

/-- Embeds `PPTXSplitter._write_presentation_xml` of the v3 rewrite
(src/pptx_cli_tool.py 1114-1134): the regex replaces the whole
`<p:sldIdLst>` block with a single entry `id="256" r:id="rId2"`; with no
slide list the regex matches nothing and the document is unchanged. -/
def writePresentationXmlV3 : Option (List SldEntry) → Option (List SldEntry)
  | none => none
  | some _ => some [⟨"256", "rId2"⟩]

/-- Embeds `PPTXSplitter._write_presentation_rels` of the v3 rewrite
(src/pptx_cli_tool.py 1136-1168): keep every relationship line whose type is
not exactly the slide type, then append the chosen slide as `rId2`. -/
def writePresentationRelsV3 (rs : List RelEntry) (slideFile : String) : List RelEntry :=
  rs.filter (fun r => !(r.typ == slideTypeURI)) ++ [⟨"rId2", slideTypeURI, slideFile⟩]

/-- Embeds `PPTXSplitter._write_modified_presentation` of the v4 rewrite
(src/pptx_cli_tool.py 1949-1977): when the document has a slide list, remove
all of its children and append the single entry `id="256" r:id="rId1"`. -/
def writeModifiedPresentationV4 : Option (List SldEntry) → Option (List SldEntry)
  | none => none
  | some _ => some [⟨"256", "rId1"⟩]

/-- Embeds `PPTXSplitter._write_modified_presentation_rels` of the v4
rewrite (src/pptx_cli_tool.py 1979-2006): drop every relationship whose type
contains `/slide` but neither `slideMaster` nor `slideLayout`, then append
the chosen slide's relationship as `rId1`. -/
def writeModifiedPresentationRelsV4 (rs : List RelEntry) (target : String) : List RelEntry :=
  rs.filter
    (fun r => !(strHasInfix r.typ "/slide"
        && !(strHasInfix r.typ "slideMaster")
        && !(strHasInfix r.typ "slideLayout")))
    ++ [⟨"rId1", slideTypeURI, target⟩]

/-- Embeds `PPTXSplitter._write_app_xml` / `_update_app_properties`
(src/pptx_cli_tool.py 1181-1191 and 2008-2021): the slide count of
`docProps/app.xml` is rewritten to 1; other payloads pass through. -/
def writeAppXml : Content → Content
  | Content.appx _ => Content.appx 1
  | c => c

/-! ## The v2 build pipeline (`_create_single_slide_pptx`, lines 731-746) -/

/-- Embeds `PPTXSplitter._create_single_slide_pptx` (src/pptx_cli_tool.py
731-746) together with `_update_content_types` (768-774, which does
nothing): every dependency that exists in the source is copied (a
dependency absent from the source is silently skipped), then the rewritten
`ppt/presentation.xml` is written.  The returned list is the sequence of
members written to the output ZIP, in order. -/
def createSingleSlidePptxV2 (zin : Package) (slideRid : String)
    (deps : List String) : Except ZipErr (List (String × Content)) := do
  let copies := deps.filterMap
    (fun d =>
      match zin.find? (fun e => e.path == d) with
      | some e => some (d, e.content)
      | none => none)
  let presC ← readC zin "ppt/presentation.xml"
  let newPres :=
    match presC with
    | Content.pres od => Content.pres (writeSingleSlidePresentationV2 slideRid od)
    | other => other
  pure (copies ++ [("ppt/presentation.xml", newPres)])

/-! ## The v3 build pipeline (`_create_slide_pptx`, lines 979-1009) -/

/-- The slide bookkeeping record of the v3/v4 rewrites
(`_extract_slide_info` / `_get_slides_with_details`). -/
structure SlideInfo where
  relId : String
  slideId : String
  slidePath : String
  slideFile : String
deriving DecidableEq

/-- `_write_presentation_xml` applied to the raw member content. -/
def writePresContent : Content → Content
  | Content.pres od => Content.pres (writePresentationXmlV3 od)
  | c => c

/-- `_write_presentation_rels` applied to the raw member content. -/
def writeRelsContent (slideFile : String) : Content → Content
  | Content.rels rs => Content.rels (writePresentationRelsV3 rs slideFile)
  | c => c

/-- Embeds `PPTXSplitter._create_slide_pptx` (src/pptx_cli_tool.py
979-1009).  The output ZIP is opened directly at the final destination
path; the returned pair is the success flag and the members that have been
written to that destination when the function returns.  Steps, in program
order: copy every collected dependency that exists; write the rewritten
presentation; write the rewritten presentation relationships; write
`[Content_Types].xml` verbatim (`_write_content_types`, lines 1170-1179);
rewrite `docProps/app.xml` (`_write_app_xml`, lines 1181-1191, whose
unguarded read raises `KeyError` when the member is missing — the exception
is caught at line 1007 and the function reports failure, leaving the
already-written members at the destination).  The four pure reads are
scrutinized together; the arms reproduce exactly the members written up to
the first failing step of the Python sequence. -/
def createSlidePptxV3 (zin : Package) (si : SlideInfo) : Bool × List (String × Content) :=
  let needed := collectSlideDependenciesV3 zin si.slidePath
  let e1 := needed.filterMap
    (fun d =>
      match zin.find? (fun e => e.path == d) with
      | some e => some (d, e.content)
      | none => none)
  match readC zin "ppt/presentation.xml", readC zin "ppt/_rels/presentation.xml.rels",
      readC zin "[Content_Types].xml", readC zin "docProps/app.xml" with
  | Except.error _, _, _, _ => (false, e1)
  | Except.ok pc, Except.error _, _, _ =>
    (false, e1 ++ [("ppt/presentation.xml", writePresContent pc)])
  | Except.ok pc, Except.ok rc, Except.error _, _ =>
    (false, e1 ++ [("ppt/presentation.xml", writePresContent pc),
      ("ppt/_rels/presentation.xml.rels", writeRelsContent si.slideFile rc)])
  | Except.ok pc, Except.ok rc, Except.ok cc, Except.error _ =>
    (false, e1 ++ [("ppt/presentation.xml", writePresContent pc),
      ("ppt/_rels/presentation.xml.rels", writeRelsContent si.slideFile rc)]
      ++ [("[Content_Types].xml", cc)])
  | Except.ok pc, Except.ok rc, Except.ok cc, Except.ok ac =>
    (true, e1 ++ [("ppt/presentation.xml", writePresContent pc),
      ("ppt/_rels/presentation.xml.rels", writeRelsContent si.slideFile rc)]
      ++ [("[Content_Types].xml", cc)]
      ++ [("docProps/app.xml", writeAppXml ac)])

/-- The content stored at path `p` after all writes: ZIP readers resolve a
duplicated name to the member written last. -/
def finalOf (entries : List (String × Content)) (p : String) : Option Content :=
  match entries.reverse.find? (fun e => e.1 == p) with
  | some e => some e.2
  | none => none

/-! ## Per-unit loop structure of the split engines -/

/-- Error raised inside a per-slide build step (e.g. a dangling relationship
surfacing as an exception in `_clone_slide`). -/
inductive SplitErr where
  | cloneFailure
deriving DecidableEq

/-- Embeds the per-slide loop of `PPTXSplitMerge.split_pptx`
(src/pptx_cli_tool.py 36-100): each slide is cloned and saved in turn with
no per-slide exception handler, so the first failing slide propagates out of
the loop (the outer handler at 97-100 logs and re-raises), leaving the files
saved so far on disk.  The result is the outcome together with the files
that were saved to disk before the function returned. -/
def splitLoopV1 (build : Nat → Except SplitErr String) :
    List Nat → List String → Except SplitErr (List String) × List String
  | [], acc => (Except.ok acc, acc)
  | u :: rest, acc =>
    match build u with
    | Except.ok f => splitLoopV1 build rest (acc ++ [f])
    | Except.error e => (Except.error e, acc)

/-- Embeds the per-slide loop of the v3 `PPTXSplitter.split`
(src/pptx_cli_tool.py 931-942): `_create_slide_pptx` reports success as a
boolean, a failed slide is reported and skipped, and the loop continues with
the remaining slides. -/
def splitLoopV3 (build : Nat → Option String) : List Nat → List String
  | [] => []
  | u :: rest =>
    match build u with
    | some f => f :: splitLoopV3 build rest
    | none => splitLoopV3 build rest

/-! ## Merge control flow -/

/-- The exceptions `merge_pptx` can raise during validation. -/
inductive MergeErr where
  | noInput
  | notFound : String → MergeErr
  | notPptx : String → MergeErr
deriving DecidableEq

/-- Observable filesystem effects of `merge_pptx`. -/
inductive MEffect where
  | openPkg : String → MEffect
  | mkdirP : String → MEffect
  | savePkg : String → MEffect
deriving DecidableEq

/-- Python `f.lower().endswith('.pptx')`. -/
def endsWithPptx (f : String) : Bool :=
  listStarts ".pptx".data.reverse (lowerStr f).data.reverse

/-- The validation loop of `merge_pptx` (src/pptx_cli_tool.py 118-122):
each input must exist and carry the `.pptx` extension, checked in order. -/
def validateInputs (fsExists : String → Bool) : List String → Option MergeErr
  | [] => none
  | f :: rest =>
    if !(fsExists f) then some (MergeErr.notFound f)
    else if !(endsWithPptx f) then some (MergeErr.notPptx f)
    else validateInputs fsExists rest

/-- Embeds `PPTXSplitMerge.merge_pptx` of src/pptx_cli_tool.py (102-154):
an empty input list raises `ValueError("No input files provided")` before
any validation, before any package is opened and before anything is written;
otherwise the inputs are validated, the base is opened, the remaining
packages are opened and cloned into it, the output directory is created and
the merged package is saved.  The second component is the ordered trace of
filesystem effects that occurred. -/
def mergePptxCli (fsExists : String → Bool) (outputFile : String) :
    List String → Except MergeErr String × List MEffect
  | [] => (Except.error MergeErr.noInput, [])
  | f :: rest =>
    match validateInputs fsExists (f :: rest) with
    | some e => (Except.error e, [])
    | none =>
      (Except.ok outputFile,
        MEffect.openPkg f :: rest.map MEffect.openPkg
          ++ [MEffect.mkdirP outputFile, MEffect.savePkg outputFile])

/-- Embeds `PPTXSplitMerge.merge_pptx` of src/pptx_split_merge.py
(174-230): identical control flow, except that the per-file existence and
extension validation loop is absent (the constructor `Presentation` fails
later instead) and a `keep_source_theme` flag selects the cloning strategy,
which has no filesystem effect.  The empty-input check at lines 196-197 is
the same first statement. -/
def mergePptxLib (keepSourceTheme : Bool) (outputFile : String) :
    List String → Except MergeErr String × List MEffect
  | [] => (Except.error MergeErr.noInput, [])
  | f :: rest =>
    let _ := keepSourceTheme
    (Except.ok outputFile,
      MEffect.openPkg f :: rest.map MEffect.openPkg
        ++ [MEffect.mkdirP outputFile, MEffect.savePkg outputFile])

/-! ## Spec-modelled merge internals

`PPTXMerger._add_slide_to_base` (src/pptx_cli_tool.py 816-824) is a stub
(`pass` under a comment listing what a full implementation would do), and
the python-pptx merge path delegates identifier management to the external
library, so the code that decides claims C4 and C5 is not in src/.  The two
definitions below are therefore modelled from the spec. -/

/-- The manifest: the ordered references of the presentation part, each a
numeric identifier paired with a numeric relationship identifier. -/
structure MManifest where
  entries : List (Nat × Nat)
deriving DecidableEq

/-- Modelled from the spec: §4.3 append mode and §9 — "compute the next
available numeric identifier (strictly greater than every existing
identifier in the manifest — never hard-coded)", via "an explicit
monotonic-allocator abstraction seeded from the maximum identifier already
present"; likewise for the relationship identifier in the owning
relationship-index part.  Missing from src/: `_add_slide_to_base` is a
stub.  Returns the new manifest, the new relationship-identifier list and
the freshly allocated pair. -/
def appendUnit (m : MManifest) (rels : List Nat) : MManifest × List Nat × (Nat × Nat) :=
  let sid := (m.entries.map Prod.fst).foldr Nat.max 0 + 1
  let rid := rels.foldr Nat.max 0 + 1
  (⟨m.entries ++ [(sid, rid)]⟩, rels ++ [rid], (sid, rid))

/-- A part of the merge model: a path, an opaque byte payload, and the
resolved internal targets of its relationships. -/
structure MPart where
  path : String
  payload : Nat
  refs : List String
deriving DecidableEq

/-- Modelled from the spec: §4.5 — "allocate a new path by incrementing a
numeric suffix scheme scoped to that part" — the first index whose candidate
path is unused. -/
def freshPath (taken : List String) (p : String) : String :=
  match ((List.range (taken.length + 1)).map
      (fun k => p ++ "_" ++ Nat.repr (k + 1))).find? (fun c => !(taken.contains c)) with
  | some c => c
  | none => p ++ "_" ++ Nat.repr (taken.length + 1)

/-- Apply a rename map to one resolved target. -/
def applyRen (ren : List (String × String)) (t : String) : String :=
  match ren.find? (fun e => e.1 == t) with
  | some e => e.2
  | none => t

/-- Modelled from the spec: §4.5 — integrate one foreign content unit's
closure into the growing base.  Missing from src/: `_add_slide_to_base` is
a stub.  For each foreign part in order: a part whose path collides with a
part already present is deduplicated when the payloads are byte-identical
(no copy; references keep resolving to the existing part) and otherwise
copied under a freshly allocated path; a non-colliding part is copied
unchanged.  Afterwards every *copied* part's references are rewritten
through the rename map so the relationship graph stays consistent; base
parts are untouched. -/
def mergeUnit (base : List MPart) (foreign : List MPart) : List MPart :=
  let step := fun (st : List MPart × List (String × String) × List String) p =>
    let (cur, ren, copied) := st
    match cur.find? (fun q => q.path == p.path) with
    | some q =>
      if q.payload == p.payload then (cur, ren, copied)
      else
        let np := freshPath (cur.map (fun q => q.path)) p.path
        (cur ++ [⟨np, p.payload, p.refs⟩], ren ++ [(p.path, np)], copied ++ [np])
    | none => (cur ++ [p], ren, copied ++ [p.path])
  let res := foreign.foldl step (base, [], [])
  res.1.map
    (fun q =>
      if res.2.2.contains q.path then ⟨q.path, q.payload, q.refs.map (applyRen res.2.1)⟩
      else q)

/-! ## Concrete packages -/

/-- Relationship type URI for slide layouts. -/
def layoutTypeURI : String :=
  "http://schemas.openxmlformats.org/officeDocument/2006/relationships/slideLayout"

/-- Relationship type URI for slide masters. -/
def masterTypeURI : String :=
  "http://schemas.openxmlformats.org/officeDocument/2006/relationships/slideMaster"

/-- Relationship type URI for themes. -/
def themeTypeURI : String :=
  "http://schemas.openxmlformats.org/officeDocument/2006/relationships/theme"

/-- Relationship type URI for images. -/
def imageTypeURI : String :=
  "http://schemas.openxmlformats.org/officeDocument/2006/relationships/image"

/-- Relationship type URI for the office document (in `_rels/.rels`). -/
def officeDocTypeURI : String :=
  "http://schemas.openxmlformats.org/officeDocument/2006/relationships/officeDocument"

/-- The type registry of the two-slide package `pkgTwoSlides`. -/
def ctTwoSlides : CTDoc :=
  { defaults := [("xml", "application/xml"), ("png", "image/png"), ("rels", "application/vnd.openxmlformats-package.relationships+xml")],
    overrides :=
      [("/ppt/presentation.xml", "application/vnd.openxmlformats-officedocument.presentationml.presentation.main+xml"),
       ("/ppt/slides/slide1.xml", "application/vnd.openxmlformats-officedocument.presentationml.slide+xml"),
       ("/ppt/slides/slide2.xml", "application/vnd.openxmlformats-officedocument.presentationml.slide+xml"),
       ("/ppt/slideLayouts/slideLayout1.xml", "application/vnd.openxmlformats-officedocument.presentationml.slideLayout+xml"),
       ("/ppt/slideMasters/slideMaster1.xml", "application/vnd.openxmlformats-officedocument.presentationml.slideMaster+xml"),
       ("/ppt/theme/theme1.xml", "application/vnd.openxmlformats-officedocument.theme+xml")] }

/-- The synthetic two-slide package of the closure claims: slide 1
references layout L and media X, L references master M, M references theme
T; slide 2 references the same layout and its own media file.  Slide 2 and
its private parts must not appear in slide 1's closure. -/
def pkgTwoSlides : Package :=
  [⟨"[Content_Types].xml", Content.ctypes ctTwoSlides⟩,
   ⟨"_rels/.rels", Content.rels
      [⟨"rId1", officeDocTypeURI, "ppt/presentation.xml"⟩,
       ⟨"rId2", "http://schemas.openxmlformats.org/package/2006/relationships/metadata/core-properties", "docProps/core.xml"⟩,
       ⟨"rId3", "http://schemas.openxmlformats.org/officeDocument/2006/relationships/extended-properties", "docProps/app.xml"⟩]⟩,
   ⟨"ppt/presentation.xml", Content.pres (some [⟨"256", "rId2"⟩, ⟨"257", "rId3"⟩])⟩,
   ⟨"ppt/_rels/presentation.xml.rels", Content.rels
      [⟨"rId1", masterTypeURI, "slideMasters/slideMaster1.xml"⟩,
       ⟨"rId2", slideTypeURI, "slides/slide1.xml"⟩,
       ⟨"rId3", slideTypeURI, "slides/slide2.xml"⟩,
       ⟨"rId4", themeTypeURI, "theme/theme1.xml"⟩]⟩,
   ⟨"ppt/slides/slide1.xml", Content.bin 11⟩,
   ⟨"ppt/slides/_rels/slide1.xml.rels", Content.rels
      [⟨"rId1", layoutTypeURI, "../slideLayouts/slideLayout1.xml"⟩,
       ⟨"rId2", imageTypeURI, "../media/image1.png"⟩]⟩,
   ⟨"ppt/slides/slide2.xml", Content.bin 12⟩,
   ⟨"ppt/slides/_rels/slide2.xml.rels", Content.rels
      [⟨"rId1", layoutTypeURI, "../slideLayouts/slideLayout1.xml"⟩,
       ⟨"rId2", imageTypeURI, "../media/image2.png"⟩]⟩,
   ⟨"ppt/slideLayouts/slideLayout1.xml", Content.bin 21⟩,
   ⟨"ppt/slideLayouts/_rels/slideLayout1.xml.rels", Content.rels
      [⟨"rId1", masterTypeURI, "../slideMasters/slideMaster1.xml"⟩]⟩,
   ⟨"ppt/slideMasters/slideMaster1.xml", Content.bin 31⟩,
   ⟨"ppt/slideMasters/_rels/slideMaster1.xml.rels", Content.rels
      [⟨"rId1", themeTypeURI, "../theme/theme1.xml"⟩]⟩,
   ⟨"ppt/theme/theme1.xml", Content.bin 41⟩,
   ⟨"ppt/media/image1.png", Content.bin 51⟩,
   ⟨"ppt/media/image2.png", Content.bin 52⟩,
   ⟨"docProps/core.xml", Content.bin 61⟩,
   ⟨"docProps/app.xml", Content.appx 2⟩]

/-- `pkgTwoSlides` with slide 1's two relationships listed in the opposite
order, so the walk visits the media file before the layout chain. -/
def pkgTwoSlidesRev : Package :=
  pkgTwoSlides.map
    (fun e =>
      if e.path == "ppt/slides/_rels/slide1.xml.rels" then
        ⟨e.path, Content.rels
          [⟨"rId2", imageTypeURI, "../media/image1.png"⟩,
           ⟨"rId1", layoutTypeURI, "../slideLayouts/slideLayout1.xml"⟩]⟩
      else e)

/-- The closure the claim enumerates for slide 1 of `pkgTwoSlides`: the
slide, layout, master, theme and media file, their relationship-index
parts, and the claim's infrastructure list — type registry, top-level
relationship index (`_rels/.rels`), core/app metadata.  It does not contain
the manifest part `ppt/presentation.xml` or its relationship index. -/
def claimClosureSlide1 : List String :=
  ["ppt/slides/slide1.xml",
   "ppt/slides/_rels/slide1.xml.rels",
   "ppt/slideLayouts/slideLayout1.xml",
   "ppt/slideLayouts/_rels/slideLayout1.xml.rels",
   "ppt/slideMasters/slideMaster1.xml",
   "ppt/slideMasters/_rels/slideMaster1.xml.rels",
   "ppt/theme/theme1.xml",
   "ppt/media/image1.png",
   "[Content_Types].xml",
   "_rels/.rels",
   "docProps/core.xml",
   "docProps/app.xml"]

/-- The part set the code actually returns for slide 1 of `pkgTwoSlides`:
`claimClosureSlide1` plus the manifest part `ppt/presentation.xml` and its
relationship index `ppt/_rels/presentation.xml.rels`, which the collectors'
fixed core lists (src/pptx_cli_tool.py 684-691 and 1901-1911) add beyond
the claim's enumeration. -/
def actualClosureSlide1 : List String :=
  claimClosureSlide1 ++ ["ppt/presentation.xml", "ppt/_rels/presentation.xml.rels"]

/-- `pkgTwoSlides` extended with a second theme part referenced by nothing:
unreachable from every slide, yet swept into every closure by the
theme-name scan (src/pptx_cli_tool.py 697-700 and 1917-1920). -/
def pkgExtraTheme : Package :=
  pkgTwoSlides ++ [⟨"ppt/theme/theme2.xml", Content.bin 42⟩]

/-- The dangling-relationship package: slide 1's relationship index targets
`../media/missing.png`, which does not exist as a part. -/
def pkgDangling : Package :=
  [⟨"[Content_Types].xml", Content.ctypes
      { defaults := [("xml", "application/xml")],
        overrides := [("/ppt/slides/slide1.xml", "application/vnd.openxmlformats-officedocument.presentationml.slide+xml")] }⟩,
   ⟨"_rels/.rels", Content.rels [⟨"rId1", officeDocTypeURI, "ppt/presentation.xml"⟩]⟩,
   ⟨"ppt/presentation.xml", Content.pres (some [⟨"256", "rId2"⟩])⟩,
   ⟨"ppt/_rels/presentation.xml.rels", Content.rels
      [⟨"rId2", slideTypeURI, "slides/slide1.xml"⟩]⟩,
   ⟨"ppt/slides/slide1.xml", Content.bin 11⟩,
   ⟨"ppt/slides/_rels/slide1.xml.rels", Content.rels
      [⟨"rId1", imageTypeURI, "../media/missing.png"⟩]⟩,
   ⟨"docProps/core.xml", Content.bin 61⟩,
   ⟨"docProps/app.xml", Content.appx 1⟩]

/-- The shared-diamond package: slides 1 and 2 reach the same master (and
through it the same theme) via their own layouts. -/
def pkgDiamond : Package :=
  [⟨"[Content_Types].xml", Content.ctypes { defaults := [("xml", "application/xml")], overrides := [] }⟩,
   ⟨"_rels/.rels", Content.rels [⟨"rId1", officeDocTypeURI, "ppt/presentation.xml"⟩]⟩,
   ⟨"ppt/presentation.xml", Content.pres (some [⟨"256", "rId2"⟩, ⟨"257", "rId3"⟩])⟩,
   ⟨"ppt/_rels/presentation.xml.rels", Content.rels
      [⟨"rId2", slideTypeURI, "slides/slide1.xml"⟩,
       ⟨"rId3", slideTypeURI, "slides/slide2.xml"⟩]⟩,
   ⟨"ppt/slides/slide1.xml", Content.bin 11⟩,
   ⟨"ppt/slides/_rels/slide1.xml.rels", Content.rels
      [⟨"rId1", layoutTypeURI, "../slideLayouts/slideLayout1.xml"⟩]⟩,
   ⟨"ppt/slides/slide2.xml", Content.bin 12⟩,
   ⟨"ppt/slides/_rels/slide2.xml.rels", Content.rels
      [⟨"rId1", layoutTypeURI, "../slideLayouts/slideLayout2.xml"⟩]⟩,
   ⟨"ppt/slideLayouts/slideLayout1.xml", Content.bin 21⟩,
   ⟨"ppt/slideLayouts/_rels/slideLayout1.xml.rels", Content.rels
      [⟨"rId1", masterTypeURI, "../slideMasters/slideMaster1.xml"⟩]⟩,
   ⟨"ppt/slideLayouts/slideLayout2.xml", Content.bin 22⟩,
   ⟨"ppt/slideLayouts/_rels/slideLayout2.xml.rels", Content.rels
      [⟨"rId1", masterTypeURI, "../slideMasters/slideMaster1.xml"⟩]⟩,
   ⟨"ppt/slideMasters/slideMaster1.xml", Content.bin 31⟩,
   ⟨"ppt/slideMasters/_rels/slideMaster1.xml.rels", Content.rels
      [⟨"rId1", themeTypeURI, "../theme/theme1.xml"⟩]⟩,
   ⟨"ppt/theme/theme1.xml", Content.bin 41⟩,
   ⟨"docProps/core.xml", Content.bin 61⟩,
   ⟨"docProps/app.xml", Content.appx 2⟩]

/-- An in-walk diamond: one slide references two layouts that share one
master, so the shared master is enqueued twice by a single walk. -/
def pkgInnerDiamond : Package :=
  [⟨"ppt/slides/slide1.xml", Content.bin 11⟩,
   ⟨"ppt/slides/_rels/slide1.xml.rels", Content.rels
      [⟨"rId1", layoutTypeURI, "../slideLayouts/slideLayout1.xml"⟩,
       ⟨"rId2", layoutTypeURI, "../slideLayouts/slideLayout2.xml"⟩]⟩,
   ⟨"ppt/slideLayouts/slideLayout1.xml", Content.bin 21⟩,
   ⟨"ppt/slideLayouts/_rels/slideLayout1.xml.rels", Content.rels
      [⟨"rId1", masterTypeURI, "../slideMasters/slideMaster1.xml"⟩]⟩,
   ⟨"ppt/slideLayouts/slideLayout2.xml", Content.bin 22⟩,
   ⟨"ppt/slideLayouts/_rels/slideLayout2.xml.rels", Content.rels
      [⟨"rId1", masterTypeURI, "../slideMasters/slideMaster1.xml"⟩]⟩,
   ⟨"ppt/slideMasters/slideMaster1.xml", Content.bin 31⟩,
   ⟨"ppt/slideMasters/_rels/slideMaster1.xml.rels", Content.rels
      [⟨"rId1", themeTypeURI, "../theme/theme1.xml"⟩]⟩,
   ⟨"ppt/theme/theme1.xml", Content.bin 41⟩]

/-- A package with relationship cycles: part `a.xml` references itself and
`b.xml`; `b.xml` references `a.xml` back. -/
def pkgCycle : Package :=
  [⟨"ppt/a.xml", Content.bin 1⟩,
   ⟨"ppt/_rels/a.xml.rels", Content.rels
      [⟨"rId1", imageTypeURI, "a.xml"⟩, ⟨"rId2", imageTypeURI, "b.xml"⟩]⟩,
   ⟨"ppt/b.xml", Content.bin 2⟩,
   ⟨"ppt/_rels/b.xml.rels", Content.rels [⟨"rId1", imageTypeURI, "a.xml"⟩]⟩]

/-- `pkgTwoSlides` without `docProps/app.xml`: `_write_app_xml`'s unguarded
read of that member raises mid-build. -/
def pkgNoApp : Package :=
  pkgTwoSlides.filter (fun e => !(e.path == "docProps/app.xml"))

/-- Slide 1's bookkeeping record in the two-slide packages. -/
def slideInfo1 : SlideInfo :=
  ⟨"rId2", "256", "ppt/slides/slide1.xml", "slides/slide1.xml"⟩



/-! ## Claim theorems -/

/-- C1 counterexample: the dependency set returned for slide 1 of the
synthetic package contains the manifest part `ppt/presentation.xml`, which
is neither one of {A, L, M, T, X}, nor one of their relationship-index
parts, nor in the claim's infrastructure enumeration (type registry,
top-level relationship index, core/app metadata) — so the returned set does
contain something else; and on the package with an extra theme part that no
part references, the unreachable `ppt/theme/theme2.xml` is returned too. -/
theorem closure_contains_manifest_beyond_enumeration :
    "ppt/presentation.xml" ∈ collectDependenciesV2 pkgTwoSlides "ppt/slides/slide1.xml"
    ∧ "ppt/presentation.xml" ∉ claimClosureSlide1
    ∧ "ppt/presentation.xml" ∈ collectAllDependenciesV4 pkgTwoSlides "ppt/slides/slide1.xml"
    ∧ "ppt/theme/theme2.xml" ∈ collectDependenciesV2 pkgExtraTheme "ppt/slides/slide1.xml" := by
  exact ⟨by decide, by decide, by decide, by decide⟩

/-- C1 amended: for the synthetic package, both `_collect_dependencies` and
`_collect_all_dependencies` return the claim's enumerated closure — {A, L,
M, T, X} with their relationship-index parts and the type registry,
top-level relationship index and core/app metadata — plus exactly two
further fixed parts, the manifest part and its relationship index, and
nothing else beyond those; none of slide 2's private parts appear; the
same set is returned when A's relationships are listed in the opposite
order, so the result does not depend on traversal order; and every member
whose lowercased name contains `theme` is swept in even when unreachable,
as the package with the unused second theme shows. -/
theorem closure_exact_plus_infrastructure :
    List.Perm (collectDependenciesV2 pkgTwoSlides "ppt/slides/slide1.xml")
      actualClosureSlide1
    ∧ List.Perm (collectDependenciesV2 pkgTwoSlidesRev "ppt/slides/slide1.xml")
      actualClosureSlide1
    ∧ List.Perm (collectAllDependenciesV4 pkgTwoSlides "ppt/slides/slide1.xml")
      actualClosureSlide1
    ∧ List.Perm (collectDependenciesV2 pkgExtraTheme "ppt/slides/slide1.xml")
      (actualClosureSlide1 ++ ["ppt/theme/theme2.xml"])
    ∧ "ppt/slides/slide2.xml" ∉ collectDependenciesV2 pkgTwoSlides "ppt/slides/slide1.xml"
    ∧ "ppt/media/image2.png" ∉ collectDependenciesV2 pkgTwoSlides "ppt/slides/slide1.xml" := by
  refine ⟨by decide, by decide, by decide, by decide, by decide, by decide⟩

/-- The dependency set `_collect_dependencies` computes for the dangling
package's slide 1. -/
def danglingDeps : List String :=
  collectDependenciesV2 pkgDangling "ppt/slides/slide1.xml"

/-- The single-slide build of the dangling package's slide 1. -/
def danglingBuild : Except ZipErr (List (String × Content)) :=
  createSingleSlidePptxV2 pkgDangling "rId2" danglingDeps

/-- C2 counterexample: in the package whose slide 1 references the
nonexistent part `ppt/media/missing.png`, the dependency collection
succeeds — the dangling path is simply added to the set without any
existence check — and `_create_single_slide_pptx` builds the unit's output
without raising, contradicting the claim that the closure fails hard and
the unit's output is not built. -/
theorem dangling_closure_succeeds_output_built :
    danglingBuild.isOk = true
    ∧ "ppt/media/missing.png" ∈ danglingDeps := by
  exact ⟨by decide, by decide⟩

/-- C2 amended: the dangling target ends up in the dependency set, the
build succeeds, and the missing part is silently omitted from the members
written to the output — the complete output member sequence is listed. -/
theorem dangling_target_silently_omitted :
    danglingBuild.map (List.map Prod.fst)
      = Except.ok
          ["ppt/slides/slide1.xml", "ppt/slides/_rels/slide1.xml.rels",
           "ppt/presentation.xml", "ppt/_rels/presentation.xml.rels",
           "[Content_Types].xml", "_rels/.rels", "docProps/core.xml",
           "docProps/app.xml", "ppt/presentation.xml"]
    ∧ "ppt/media/missing.png" ∈ danglingDeps
    ∧ "ppt/media/missing.png" ∉ (danglingBuild.toOption.getD []).map Prod.fst := by
  exact ⟨by decide, by decide, by decide⟩

/-- C3 counterexample: `_write_single_slide_presentation` (first zipfile
rewrite) applied to a two-slide manifest choosing the second slide keeps
that slide's original identifiers `id="257" r:id="rId3"` — not the
canonical first-slot pair `id="256" r:id="rId1"`. -/
theorem singleton_manifest_keeps_original_ids :
    writeSingleSlidePresentationV2 "rId3"
        (some [⟨"256", "rId2"⟩, ⟨"257", "rId3"⟩])
      = some [⟨"257", "rId3"⟩]
    ∧ writeSingleSlidePresentationV2 "rId3"
        (some [⟨"256", "rId2"⟩, ⟨"257", "rId3"⟩])
      ≠ some [⟨"256", "rId1"⟩] := by
  exact ⟨rfl, by decide⟩

/-- C3 amended: the v4 writer `_write_modified_presentation` always emits
exactly one manifest entry with the canonical identifiers `256`/`rId1`, and
its companion rels writer registers `rId1` for the chosen slide's target;
the earlier v2 writer also keeps exactly one entry — the chosen slide's —
but retains that slide's original identifiers. -/
theorem singleton_manifest_amended :
    (∀ l : List SldEntry,
      writeModifiedPresentationV4 (some l) = some [⟨"256", "rId1"⟩])
    ∧ (∀ (rs : List RelEntry) (t : String),
      (⟨"rId1", slideTypeURI, t⟩ : RelEntry) ∈ writeModifiedPresentationRelsV4 rs t)
    ∧ (∀ (rid : String) (l : List SldEntry) (e : SldEntry),
      l.filter (fun x => x.rid == rid) = [e] →
      writeSingleSlidePresentationV2 rid (some l) = some [e]) := by
  refine ⟨fun l => rfl, ?_, ?_⟩
  · intro rs t
    unfold writeModifiedPresentationRelsV4
    simp
  · intro rid l e h
    show some (l.filter (fun x => x.rid == rid)) = some [e]
    rw [h]

/-- C3 witness for the amended theorem's hypotheses, at concrete inputs. -/
theorem singleton_manifest_amended_witness :
    writeSingleSlidePresentationV2 "rId3"
        (some [⟨"254", "rId8"⟩, ⟨"257", "rId3"⟩, ⟨"300", "rId9"⟩])
      = some [⟨"257", "rId3"⟩] :=
  singleton_manifest_amended.2.2 "rId3"
    [⟨"254", "rId8"⟩, ⟨"257", "rId3"⟩, ⟨"300", "rId9"⟩] ⟨"257", "rId3"⟩ (by decide)

/-- A per-slide builder in which unit 2 fails and every other unit
succeeds, its output named by the unit number. -/
def buildFail2 : Nat → Except SplitErr String := fun u =>
  if u == 2 then Except.error SplitErr.cloneFailure else Except.ok (Nat.repr u)

/-- The same scenario for the v3 loop, which reports failure as `none`. -/
def buildFail2Opt : Nat → Option String := fun u =>
  if u == 2 then none else some (Nat.repr u)

/-- C6 counterexample: in the `split_pptx` loop, when unit 2 of 3 fails,
the whole operation aborts with the error: only unit 1's file was saved and
unit 3 is never produced, contradicting the claim that a per-unit error is
skipped and every remaining unit still gets an output. -/
theorem split_v1_unit_error_aborts_rest :
    splitLoopV1 buildFail2 [1, 2, 3] []
      = (Except.error SplitErr.cloneFailure, ["1"])
    ∧ "3" ∉ (splitLoopV1 buildFail2 [1, 2, 3] []).2 := by
  exact ⟨by decide, by decide⟩

/-- C6 amended: the v3 splitter's loop does isolate per-unit failures — it
produces exactly the outputs of the units whose build succeeds, in order —
while the `split_pptx` loop propagates the first per-unit error (previous
theorem).  With unit 2 of 3 failing, the v3 loop still produces units 1
and 3. -/
theorem split_v3_isolates_unit_failures :
    (∀ (build : Nat → Option String) (units : List Nat),
      splitLoopV3 build units = units.filterMap build)
    ∧ splitLoopV3 buildFail2Opt [1, 2, 3] = ["1", "3"] := by
  constructor
  · intro build units
    induction units with
    | nil => rfl
    | cons u rest ih =>
      cases hb : build u <;> simp [splitLoopV3, hb, ih]
  · decide

/-- C7 counterexample: on the shared-diamond package (both slides reach the
same master through their layouts), the v3 dependency walk — the
`_collect_transitive_deps` recursion as invoked by
`_collect_slide_dependencies` — never visits the shared master in either
unit's walk: its guard sees the relationship-index part that the caller
already added to `needed` and returns without expanding, so the shared part
is visited zero times, not exactly once. -/
theorem v3_walk_never_visits_shared_master :
    "ppt/slideMasters/slideMaster1.xml"
        ∉ collectSlideDependenciesV3 pkgDiamond "ppt/slides/slide1.xml"
    ∧ "ppt/slideMasters/slideMaster1.xml"
        ∉ collectSlideDependenciesV3 pkgDiamond "ppt/slides/slide2.xml" := by
  exact ⟨by decide, by decide⟩

/-- C7 amended: the queue-driven walk of `_collect_dependencies` /
`_collect_all_dependencies` terminates on every package with every part
expanded at most once (the fuel `bfsFuel` drains the queue and the
expansion log has no duplicates); on the shared-diamond, in-walk-diamond
and self-cycle packages each shared part is expanded exactly once.  The
`_collect_transitive_deps` recursion likewise visits each part at most once
when invoked on a fresh `needed` set — but through its actual caller it
visits parts deeper than one hop zero times (previous theorem). -/
theorem walk_terminates_each_part_expanded_once :
    (∀ (zin : Package) (rt : String → String → Option String) (start : String),
      (bfsRun zin rt start).queue = [] ∧ (bfsRun zin rt start).processed.Nodup)
    ∧ (bfsRun pkgDiamond resolveTargetV2 "ppt/slides/slide1.xml").processed.count
        "ppt/slideMasters/slideMaster1.xml" = 1
    ∧ (bfsRun pkgDiamond resolveTargetV2 "ppt/slides/slide2.xml").processed.count
        "ppt/slideMasters/slideMaster1.xml" = 1
    ∧ (bfsRun pkgInnerDiamond resolveTargetV2 "ppt/slides/slide1.xml").processed.count
        "ppt/slideMasters/slideMaster1.xml" = 1
    ∧ (bfsRun pkgCycle resolveTargetV2 "ppt/a.xml").processed = ["ppt/a.xml", "ppt/b.xml"]
    ∧ (collectTransitiveDepsV3 pkgInnerDiamond 100 "ppt/slides/slide1.xml" []).count
        "ppt/slideMasters/slideMaster1.xml" = 1 := by
  refine ⟨fun zin rt start => bfsRunDone zin rt start, ?_, ?_, ?_, ?_, ?_⟩
  · decide
  · decide
  · decide
  · decide
  · decide

/-- The v3 single-slide build of slide 1 of the two-slide package. -/
def splitOutSlide1 : Bool × List (String × Content) :=
  createSlidePptxV3 pkgTwoSlides slideInfo1

/-- C8 counterexample: the type registry written for slide 1's output is
the source registry verbatim; it still carries the override entry for
`/ppt/slides/slide2.xml` although that part is absent from the output,
contradicting the claim that overrides for absent parts are dropped. -/
theorem content_types_keeps_stale_override :
    finalOf splitOutSlide1.2 "[Content_Types].xml" = some (Content.ctypes ctTwoSlides)
    ∧ "/ppt/slides/slide2.xml" ∈ ctTwoSlides.overrides.map Prod.fst
    ∧ "ppt/slides/slide2.xml" ∉ splitOutSlide1.2.map Prod.fst := by
  exact ⟨by decide, by decide, by decide⟩

theorem finalOfSnocNe (l : List (String × Content)) (p q : String) (c : Content)
    (h : (q == p) = false) : finalOf (l ++ [(q, c)]) p = finalOf l p := by
  simp [finalOf, List.reverse_append, List.find?, h]

theorem finalOfSnocEq (l : List (String × Content)) (p : String) (c : Content) :
    finalOf (l ++ [(p, c)]) p = some c := by
  simp [finalOf, List.reverse_append, List.find?]

/-- C8 amended: whenever the v3 build succeeds, the `[Content_Types].xml`
member it writes to the output is exactly the source package's registry,
copied verbatim (`_write_content_types` performs no filtering), so override
entries for parts outside the closure are carried through. -/
theorem content_types_copied_verbatim (zin : Package) (si : SlideInfo) (cc : Content)
    (hread : readC zin "[Content_Types].xml" = Except.ok cc)
    (hok : (createSlidePptxV3 zin si).1 = true) :
    finalOf (createSlidePptxV3 zin si).2 "[Content_Types].xml" = some cc := by
  cases h1 : readC zin "ppt/presentation.xml" with
  | error e => simp [createSlidePptxV3, h1] at hok
  | ok pc =>
    cases h2 : readC zin "ppt/_rels/presentation.xml.rels" with
    | error e => simp [createSlidePptxV3, h1, h2] at hok
    | ok rc =>
      cases h4 : readC zin "docProps/app.xml" with
      | error e => simp [createSlidePptxV3, h1, h2, hread, h4] at hok
      | ok ac =>
        have hshape : (createSlidePptxV3 zin si).2
            = (((collectSlideDependenciesV3 zin si.slidePath).filterMap
                  (fun d =>
                    match zin.find? (fun e => e.path == d) with
                    | some e => some (d, e.content)
                    | none => none)
                ++ [("ppt/presentation.xml", writePresContent pc),
                    ("ppt/_rels/presentation.xml.rels", writeRelsContent si.slideFile rc)]
                ++ [("[Content_Types].xml", cc)])
                ++ [("docProps/app.xml", writeAppXml ac)]) := by
          simp [createSlidePptxV3, h1, h2, hread, h4]
        rw [hshape, finalOfSnocNe _ _ _ _ (by decide), finalOfSnocEq]

/-- C8 witness: the verbatim-copy theorem applied to the two-slide package. -/
theorem content_types_copied_verbatim_witness :
    finalOf (createSlidePptxV3 pkgTwoSlides slideInfo1).2 "[Content_Types].xml"
      = some (Content.ctypes ctTwoSlides) :=
  content_types_copied_verbatim pkgTwoSlides slideInfo1
    (Content.ctypes ctTwoSlides) (by decide) (by decide)

/-- C9 counterexample: on the package missing `docProps/app.xml`, the v3
per-slide build fails (`_write_app_xml`'s read raises, the handler returns
`False`) — yet the members already written remain at the final destination
path, which was opened for writing directly: the claim that a failed
artifact leaves nothing at the destination is false. -/
theorem failed_build_leaves_file_at_destination :
    (createSlidePptxV3 pkgNoApp slideInfo1).1 = false
    ∧ (createSlidePptxV3 pkgNoApp slideInfo1).2 ≠ [] := by
  exact ⟨by decide, by decide⟩

/-- C9 amended: the v3 build writes directly to the destination; on this
failing run the destination holds exactly the eleven members written before
the failure — an incomplete container without `docProps/app.xml`. -/
theorem failed_build_leftover_destination_contents :
    (createSlidePptxV3 pkgNoApp slideInfo1).2.map Prod.fst
      = ["ppt/slides/slide1.xml", "ppt/slides/_rels/slide1.xml.rels",
         "ppt/slideLayouts/slideLayout1.xml", "ppt/slideLayouts/_rels/slideLayout1.xml.rels",
         "ppt/media/image1.png", "_rels/.rels", "docProps/core.xml",
         "ppt/theme/theme1.xml", "ppt/presentation.xml",
         "ppt/_rels/presentation.xml.rels", "[Content_Types].xml"]
    ∧ "docProps/app.xml" ∉ (createSlidePptxV3 pkgNoApp slideInfo1).2.map Prod.fst := by
  exact ⟨by decide, by decide⟩

theorem leFoldrMax (l : List Nat) (x : Nat) (h : x ∈ l) : x ≤ l.foldr Nat.max 0 := by
  induction l with
  | nil => simp at h
  | cons a t ih =>
    rcases List.mem_cons.mp h with rfl | hmem
    · exact Nat.le_max_left _ _
    · exact le_trans (ih hmem) (Nat.le_max_right _ _)

/-- C4: the append-mode allocator registers the new unit with a numeric
identifier strictly greater than every identifier already in the manifest
and a relationship identifier strictly greater than every identifier
already in the owning relationship-index part; no existing manifest or
relationship entry is removed (the new lists are the old ones with exactly
one appended pair); and the allocation is not a hard-coded constant — two
different bases receive different identifiers. -/
theorem merge_append_allocates_monotonic :
    (∀ (m : MManifest) (rels : List Nat),
      (∀ e ∈ m.entries, e.1 < (appendUnit m rels).2.2.1)
      ∧ (∀ r ∈ rels, r < (appendUnit m rels).2.2.2)
      ∧ (appendUnit m rels).1.entries = m.entries ++ [(appendUnit m rels).2.2]
      ∧ (appendUnit m rels).2.1 = rels ++ [(appendUnit m rels).2.2.2])
    ∧ (appendUnit ⟨[(256, 2)]⟩ [1, 2]).2.2 ≠ (appendUnit ⟨[(400, 7)]⟩ [1, 7]).2.2 := by
  refine ⟨fun m rels => ⟨?_, ?_, rfl, rfl⟩, by decide⟩
  · intro e he
    have : e.1 ≤ (m.entries.map Prod.fst).foldr Nat.max 0 :=
      leFoldrMax _ _ (List.mem_map.mpr ⟨e, he, rfl⟩)
    simpa [appendUnit, Nat.lt_succ_iff] using this
  · intro r hr
    have : r ≤ rels.foldr Nat.max 0 := leFoldrMax _ _ hr
    simpa [appendUnit, Nat.lt_succ_iff] using this

/-- C4 witness: the allocator applied to a concrete base manifest with
entries `(256, 2)`, `(300, 5)` and relationship identifiers `1, 2, 5`. -/
theorem merge_append_allocates_monotonic_witness :
    300 < (appendUnit ⟨[(256, 2), (300, 5)]⟩ [1, 2, 5]).2.2.1
    ∧ 5 < (appendUnit ⟨[(256, 2), (300, 5)]⟩ [1, 2, 5]).2.2.2 :=
  ⟨(merge_append_allocates_monotonic.1 ⟨[(256, 2), (300, 5)]⟩ [1, 2, 5]).1
      (300, 5) (by decide),
   (merge_append_allocates_monotonic.1 ⟨[(256, 2), (300, 5)]⟩ [1, 2, 5]).2.1
      5 (by decide)⟩

/-- A single-slide base package for the merge model: slide 1 references the
theme part, whose bytes are `77`. -/
def baseUnitA : List MPart :=
  [⟨"ppt/slides/slide1.xml", 11, ["ppt/theme/theme1.xml"]⟩,
   ⟨"ppt/theme/theme1.xml", 77, []⟩]

/-- A foreign unit whose theme part is byte-identical to the base's. -/
def foreignSameTheme : List MPart :=
  [⟨"ppt/slides/slide2.xml", 12, ["ppt/theme/theme1.xml"]⟩,
   ⟨"ppt/theme/theme1.xml", 77, []⟩]

/-- A foreign unit whose theme part collides by path but has different
bytes (`88`). -/
def foreignDiffTheme : List MPart :=
  [⟨"ppt/slides/slide2.xml", 12, ["ppt/theme/theme1.xml"]⟩,
   ⟨"ppt/theme/theme1.xml", 88, []⟩]

/-- C5: merging a foreign part byte-identical to a base part at the same
path is a no-op on the package (general dedup law); concretely, merging the
byte-identical-theme unit yields exactly one copy of the theme with both
slides' references resolving to it, merging the different-bytes unit keeps
both payloads under distinct paths with the foreign slide's reference
retargeted to the renamed copy, and in both merged packages every internal
reference resolves to an existing part. -/
theorem merge_dedup_and_rename :
    (∀ (base : List MPart) (p q : MPart),
      base.find? (fun e => e.path == p.path) = some q → q.payload = p.payload →
      mergeUnit base [p] = base)
    ∧ mergeUnit baseUnitA foreignSameTheme
        = [⟨"ppt/slides/slide1.xml", 11, ["ppt/theme/theme1.xml"]⟩,
           ⟨"ppt/theme/theme1.xml", 77, []⟩,
           ⟨"ppt/slides/slide2.xml", 12, ["ppt/theme/theme1.xml"]⟩]
    ∧ mergeUnit baseUnitA foreignDiffTheme
        = [⟨"ppt/slides/slide1.xml", 11, ["ppt/theme/theme1.xml"]⟩,
           ⟨"ppt/theme/theme1.xml", 77, []⟩,
           ⟨"ppt/slides/slide2.xml", 12, ["ppt/theme/theme1.xml_1"]⟩,
           ⟨"ppt/theme/theme1.xml_1", 88, []⟩]
    ∧ ((mergeUnit baseUnitA foreignSameTheme).flatMap (fun e => e.refs)).all
        (fun r => (mergeUnit baseUnitA foreignSameTheme).any (fun e => e.path == r)) = true
    ∧ ((mergeUnit baseUnitA foreignDiffTheme).flatMap (fun e => e.refs)).all
        (fun r => (mergeUnit baseUnitA foreignDiffTheme).any (fun e => e.path == r)) = true := by
  refine ⟨?_, by decide, by decide, by decide, by decide⟩
  intro base p q hfind hpay
  unfold mergeUnit
  simp only [List.foldl_cons, List.foldl_nil, hfind, hpay, beq_self_eq_true, if_true]
  simp [List.contains]

/-- C5 witness: the dedup law applied at a concrete base and a
byte-identical foreign part. -/
theorem merge_dedup_and_rename_witness :
    mergeUnit baseUnitA [⟨"ppt/theme/theme1.xml", 77, []⟩] = baseUnitA :=
  merge_dedup_and_rename.1 baseUnitA ⟨"ppt/theme/theme1.xml", 77, []⟩
    ⟨"ppt/theme/theme1.xml", 77, []⟩ (by decide) rfl

/-- C10: for the empty input list both `merge_pptx` implementations return
the `ValueError` for missing inputs as their very first step: the effect
trace is empty, so no package was opened and nothing — in particular no
output file — was created at the destination. -/
theorem merge_empty_input_errors_before_any_effect :
    (∀ (fsExists : String → Bool) (out : String),
      mergePptxCli fsExists out [] = (Except.error MergeErr.noInput, []))
    ∧ (∀ (keep : Bool) (out : String),
      mergePptxLib keep out [] = (Except.error MergeErr.noInput, [])) :=
  ⟨fun _ _ => rfl, fun _ _ => rfl⟩

